import Mathlib

/-!
Verification of the schema-reconciliation and row-normalization engine in
import_xhs_from_excel.py (alias-based column resolution, per-row type
coercion, identity synthesis, deduplication and tag merging).

Modelling conventions for the shallow embedding:
- A spreadsheet cell value is the closed variant Value
  (missing/null/NaN, integer, floating point, text, date-time).
  Python None and float NaN are both represented by Value.na where the
  code treats them identically (pd.isna is true for both).
- Python floating-point values are modelled by PFloat: a finite value
  carries an exact rational; positive and negative infinity and NaN are
  separate constructors. Truncation toward zero of a finite value agrees
  with the Python int() conversion on the examples at issue.
- Functions that can raise an uncaught Python exception return
  Except PyError.
- The pandas to_datetime call is an external library collaborator; it is
  passed in as a parameter pdm : Value -> Option Int giving the epoch
  milliseconds of a successfully parsed value, none on parse failure.
- py_lower models the Python lower() on the label alphabets that occur
  (ASCII letters and CJK, which lower() leaves unchanged), and py_strip
  models strip() on ASCII whitespace.
-/

/-- Floating point values as seen by the code: finite values carry an exact
rational, infinities carry their sign, NaN is its own constructor. -/
inductive PFloat where
  | finite (q : ℚ)
  | inf (neg : Bool)
  | nan
deriving Repr, DecidableEq

/-- A raw cell value handed to the importer by pandas. -/
inductive Value where
  | na
  | int (n : Int)
  | float (f : PFloat)
  | text (s : String)
  | datetime (ms : Int)
deriving Repr, DecidableEq

/-- Uncaught Python exceptions that the coercion helpers can raise:
int() of an infinite float raises OverflowError, which the except
ValueError clause in to_int does not catch. -/
inductive PyError where
  | overflowError
deriving Repr, DecidableEq

deriving instance DecidableEq for Except

/-- The Python lower() conversion: lowercase the ASCII letters, leave
every other character (including CJK) unchanged, like Char.toLower. -/
def py_lower (s : String) : String := ⟨s.data.map Char.toLower⟩

/-- ASCII whitespace, as recognized by the Python strip(). -/
def isSpaceChar (c : Char) : Bool :=
  c = ' ' ∨ c = '\t' ∨ c = '\n' ∨ c = '\r' ∨ c = '\x0b' ∨ c = '\x0c'

/-- The Python strip() on ASCII whitespace: drop it on both ends. -/
def py_strip (s : String) : String :=
  ⟨((s.data.dropWhile isSpaceChar).reverse.dropWhile isSpaceChar).reverse⟩

/-- Truncation toward zero of a rational, as Python int() does on a finite
float: tdiv of the numerator by the denominator truncates toward zero. -/
def truncQ (q : ℚ) : Int := q.num.tdiv q.den

/-- Value of a list of decimal digit characters. -/
def digitsToNat (ds : List Char) : Nat :=
  ds.foldl (fun acc c => acc * 10 + (c.toNat - 48)) 0

/-- The exact rational value of a decimal literal with the given mantissa
value, fraction length and exponent, built with mkRat so that it
evaluates by kernel reduction. -/
def decimalToQ (mant : Nat) (fracLen : Nat) (e : Int) : ℚ :=
  match e with
  | .ofNat m => mkRat ((mant : Int) * (((10 : Nat) ^ m : Nat) : Int)) ((10 : Nat) ^ fracLen)
  | .negSucc m => mkRat (mant : Int) ((10 : Nat) ^ fracLen * (10 : Nat) ^ (m + 1))

/-- Optional sign at the front of a numeric literal; true means negative. -/
def parseSign : List Char → Bool × List Char
  | '+' :: rest => (false, rest)
  | '-' :: rest => (true, rest)
  | cs => (false, cs)

/-- Exponent part of a float literal (input already lowercased): either
nothing remains, or the letter e followed by an optional sign and a
nonempty digit run consuming the rest of the input. -/
def parseExpPart : List Char → Option Int
  | [] => some 0
  | 'e' :: rest =>
      let sr := parseSign rest
      let ds := sr.2.takeWhile Char.isDigit
      let rest2 := sr.2.dropWhile Char.isDigit
      if ds.isEmpty ∨ ¬ rest2.isEmpty then none
      else some (if sr.1 then -(digitsToNat ds : Int) else (digitsToNat ds : Int))
  | _ => none

/-- Mantissa-and-exponent body of a float literal (sign already removed,
input lowercased): digits, an optional point with further digits, and an
optional exponent; at least one digit must be present. -/
def parseNumber (cs : List Char) : Option ℚ :=
  let ip := cs.takeWhile Char.isDigit
  let r1 := cs.dropWhile Char.isDigit
  let fr : List Char × List Char :=
    match r1 with
    | '.' :: rest => (rest.takeWhile Char.isDigit, rest.dropWhile Char.isDigit)
    | _ => ([], r1)
  if ip.isEmpty ∧ fr.1.isEmpty then none
  else
    match parseExpPart fr.2 with
    | none => none
    | some e =>
        some (decimalToQ (digitsToNat (ip ++ fr.1)) fr.1.length e)

/-- The Python float() conversion on text: strip whitespace, take an
optional sign, then either an infinity or NaN word or a decimal literal
with optional fraction and exponent. Models the standard ASCII decimal
forms; none models a ValueError from float(). -/
def pyFloat (s : String) : Option PFloat :=
  let t := py_lower (py_strip s)
  let sr := parseSign t.data
  if sr.2 = "inf".data ∨ sr.2 = "infinity".data then some (.inf sr.1)
  else if sr.2 = "nan".data then some .nan
  else (parseNumber sr.2).map (fun q => .finite (if sr.1 then -q else q))

/-- The Python str() conversion on a cell value. Exact for integers and
text, which are the only cases the importer reaches with data the claims
touch; the float, NaN and date-time renderings abstract the Python repr. -/
def pyStr : Value → String
  | .na => "nan"
  | .int n => toString n
  | .float (.finite q) => toString q
  | .float (.inf neg) => if neg then "-inf" else "inf"
  | .float .nan => "nan"
  | .text s => s
  | .datetime ms => toString ms

/-- Python truthiness of a value as used by the guards if not user_id and
friends; none models Python None, which is falsy. -/
def truthy : Option Value → Bool
  | none => false
  | some .na => false
  | some (.int n) => n != 0
  | some (.float (.finite q)) => q != 0
  | some (.float _) => true
  | some (.text s) => s != ""
  | some (.datetime _) => true

/-- str() applied to an optional value; the callers only apply it under a
truthiness guard, which rules out none. -/
def pyStrOpt : Option Value → String
  | none => "None"
  | some v => pyStr v

/-- The to_int helper: NaN and None yield the default, native integers
pass through, finite floats truncate toward zero, an infinite float
raises OverflowError from int(), nonblank text goes through float() and
then int() with only ValueError caught (so text parsing to an infinity
also raises), and everything else yields the default. -/
def to_int : Option Value → Option Int → Except PyError (Option Int)
  | none, d => .ok d
  | some .na, d => .ok d
  | some (.float .nan), d => .ok d
  | some (.int n), _ => .ok (some n)
  | some (.float (.finite q)), _ => .ok (some (truncQ q))
  | some (.float (.inf _)), _ => .error .overflowError
  | some (.text s), d =>
      if py_strip s = "" then .ok d
      else
        match pyFloat s with
        | some (.finite q) => .ok (some (truncQ q))
        | some (.inf _) => .error .overflowError
        | some .nan => .ok d
        | none => .ok d
  | some (.datetime _), d => .ok d

/-- The to_ts_ms helper: first try to_int with default None; a raised
error propagates, an integer result is returned literally as epoch
milliseconds, a None input falls back to the default, a NaN input makes
the to_datetime call produce NaT whose timestamp() raises and is caught,
yielding the default; otherwise the external to_datetime parse pdm is
attempted and a failure yields the default. -/
def to_ts_ms (pdm : Value → Option Int) : Option Value → Option Int →
    Except PyError (Option Int)
  | o, d =>
    match to_int o none with
    | .error e => .error e
    | .ok (some n) => .ok (some n)
    | .ok none =>
        match o with
        | none => .ok d
        | some .na => .ok d
        | some (.float .nan) => .ok d
        | some v =>
            match pdm v with
            | some ms => .ok (some ms)
            | none => .ok d

/-- The lookup of a lowercased label in the dict built by the
comprehension over the sheet columns: later columns overwrite earlier
ones on equal lowercased keys, so the last matching column is returned. -/
def dict_get (headers : List String) (key : String) : Option String :=
  headers.reverse.find? (fun c => py_lower c == key)

/-- The inner loop of build_col_map for a single canonical field: scan
the alias list in order, look each alias up case-insensitively among the
headers, and take the first truthy hit (an empty-string column is falsy
in Python and is skipped). -/
def resolve_field (headers : List String) : List String → Option String
  | [] => none
  | n :: rest =>
      match dict_get headers (py_lower n) with
      | some col => if col = "" then resolve_field headers rest else some col
      | none => resolve_field headers rest

/-- The build_col_map helper: for each canonical field in declaration
order, record the resolved column if any. -/
def build_col_map (headers : List String) (aliases : List (String × List String)) :
    List (String × String) :=
  aliases.filterMap (fun p => (resolve_field headers p.2).map (fun col => (p.1, col)))

def NOTE_ALIASES : List (String × List String) :=
  [("note_id", ["note_id", "笔记id", "笔记ID"]),
   ("note_url", ["note_url", "笔记链接"]),
   ("title", ["title", "笔记标题"]),
   ("desc", ["desc", "笔记内容"]),
   ("time", ["time", "发布时间"]),
   ("tag_list", ["tag_list", "话题", "笔记内容标签"]),
   ("source_keyword", ["source_keyword", "命中关键词"]),
   ("liked_count", ["liked_count", "点赞", "赞", "互动量"]),
   ("collected_count", ["collected_count", "收藏"]),
   ("comment_count", ["comment_count", "评论"]),
   ("share_count", ["share_count", "分享"]),
   ("user_id", ["user_id", "账号小红书号", "作者ID"]),
   ("nickname", ["nickname", "账号昵称"]),
   ("avatar", ["avatar", "头像", "账号头像"]),
   ("ip_location", ["ip_location", "发文属地", "IP属地"])]

def CREATOR_ALIASES : List (String × List String) :=
  [("user_id", ["user_id", "账号小红书号", "作者ID"]),
   ("nickname", ["nickname", "账号昵称"]),
   ("avatar", ["avatar", "头像", "账号头像"]),
   ("ip_location", ["ip_location", "IP属地", "常驻地"]),
   ("desc", ["desc", "账号简介", "作者简介"]),
   ("gender", ["gender", "性别"]),
   ("follows", ["follows", "关注数"]),
   ("fans", ["fans", "当前粉丝数", "粉丝数"]),
   ("interaction", ["interaction", "互动量"]),
   ("tag_list", ["tag_list", "账号标签"])]

def COMMENT_ALIASES : List (String × List String) :=
  [("comment_id", ["comment_id", "评论id", "评论ID"]),
   ("note_id", ["note_id", "笔记id", "笔记ID"]),
   ("user_id", ["user_id", "账号小红书号", "作者ID"]),
   ("nickname", ["nickname", "账号昵称"]),
   ("avatar", ["avatar", "头像", "账号头像"]),
   ("ip_location", ["ip_location", "IP属地"]),
   ("content", ["content", "评论内容"]),
   ("create_time", ["create_time", "评论时间"]),
   ("sub_comment_count", ["sub_comment_count", "回复数"]),
   ("pictures", ["pictures", "图片"]),
   ("parent_comment_id", ["parent_comment_id", "父评论id"]),
   ("like_count", ["like_count", "点赞数", "赞"])]

/-- A sheet row: the cell value under each header label; labels the row
does not carry map to Value.na, matching the Series.get default path. -/
abbrev Row := String → Value

/-- One sheet: ordered header labels and ordered rows. -/
structure Sheet where
  headers : List String
  rows : List Row

/-- The get helper: look the field up in the column map (an unresolved or
empty-string column yields the default), then read the cell, with a NaN
or missing cell also yielding the default. -/
def get_value (row : Row) (cm : List (String × String)) (field : String)
    (d : Option Value) : Option Value :=
  match cm.lookup field with
  | none => d
  | some col =>
      if col = "" then d
      else
        match row col with
        | .na => d
        | .float .nan => d
        | v => some v

/-- A persisted xhs_creator record; field values are exactly what the
constructor call receives (numeric fields are stored as str of the
coerced integer). -/
structure CreatorRecord where
  user_id : String
  nickname : Option Value
  avatar : Option Value
  ip_location : Option Value
  desc : Option Value
  gender : Option Value
  follows : String
  fans : String
  interaction : String
  tag_list : Option Value
  add_ts : Int
  last_modify_ts : Int
deriving Repr, DecidableEq

/-- str(to_int(x, 0)) as used for the numeric count fields. -/
def int0_str (o : Option Value) : Except PyError String :=
  (to_int o (some 0)).map (fun r => toString (r.getD 0))

/-- Build one XhsCreator object from a row; the three numeric coercions
can raise and are evaluated in constructor-argument order. -/
def mkCreator (cm : List (String × String)) (row : Row) (uid : String)
    (nowMs : Int) : Except PyError CreatorRecord :=
  match int0_str (get_value row cm "follows" none),
        int0_str (get_value row cm "fans" none),
        int0_str (get_value row cm "interaction" none) with
  | .error e, _, _ => .error e
  | _, .error e, _ => .error e
  | _, _, .error e => .error e
  | .ok fo, .ok fa, .ok it =>
      .ok { user_id := uid
            nickname := get_value row cm "nickname" none
            avatar := get_value row cm "avatar" none
            ip_location := get_value row cm "ip_location" none
            desc := get_value row cm "desc" none
            gender := get_value row cm "gender" none
            follows := fo
            fans := fa
            interaction := it
            tag_list := get_value row cm "tag_list" none
            add_ts := nowMs
            last_modify_ts := nowMs }

/-- The user_id string a creator row contributes, none when the row is
dropped because its user_id cell is falsy. -/
def uid_str (cm : List (String × String)) (row : Row) : Option String :=
  let u := get_value row cm "user_id" none
  if truthy u then some (pyStrOpt u) else none

/-- The creator loop: walk the rows keeping the set of already seen
user_id strings; a falsy user_id cell or an already seen user_id skips
the row, otherwise the row is materialized and its user_id remembered. -/
def creator_rows (cm : List (String × String)) (nowMs : Int) :
    List Row → List String → Except PyError (List CreatorRecord)
  | [], _ => .ok []
  | row :: rest, seen =>
      match uid_str cm row with
      | none => creator_rows cm nowMs rest seen
      | some s =>
          if s ∈ seen then creator_rows cm nowMs rest seen
          else
            match mkCreator cm row s nowMs with
            | .error e => .error e
            | .ok obj =>
                match creator_rows cm nowMs rest (s :: seen) with
                | .error e => .error e
                | .ok tail => .ok (obj :: tail)

/-- The creator section: nothing when the sheet is absent or empty or
when user_id resolves to no column; otherwise the deduplicating loop. -/
def process_creators (sheet : Option Sheet) (nowMs : Int) :
    Except PyError (Option (List CreatorRecord)) :=
  match sheet with
  | none => .ok none
  | some sh =>
      if sh.rows.isEmpty then .ok none
      else
        let cm := build_col_map sh.headers CREATOR_ALIASES
        if (cm.lookup "user_id").isNone then .ok none
        else (creator_rows cm nowMs sh.rows []).map some

/-- A persisted xhs_note record: the fields whose values depend on the
row; constant literal fields (type, video_url, image_list, xsec_token,
all None) are omitted. -/
structure NoteRecord where
  user_id : String
  nickname : Option Value
  avatar : Option Value
  ip_location : Option Value
  add_ts : Int
  last_modify_ts : Int
  note_id : String
  title : Option Value
  desc : Option Value
  time : Int
  last_update_time : Int
  liked_count : String
  collected_count : String
  comment_count : String
  share_count : String
  tag_list : Option String
  note_url : Option Value
  source_keyword : Option Value
deriving Repr, DecidableEq

/-- The auxiliary tag columns, looked up by literal label. -/
def extra_tag_cols : List String := ["笔记分类", "提及品类", "种草品牌", "商业合作品牌"]

/-- The auxiliary tag values a note row contributes: for each of the four
literal columns present in the sheet, the stripped cell value when it is
nonblank text. -/
def extra_tags (headers : List String) (row : Row) : List String :=
  extra_tag_cols.filterMap (fun c =>
    if headers.contains c then
      match row c with
      | .text s => if py_strip s = "" then none else some (py_strip s)
      | _ => none
    else none)

/-- The ordered tag sequence a note row produces: the auxiliary values in
the fixed column order, with the stripped resolved tag_list value
inserted at the front when it is present and nonblank. -/
def tag_seq (headers : List String) (cm : List (String × String)) (row : Row) :
    List String :=
  match get_value row cm "tag_list" none with
  | none => extra_tags headers row
  | some v =>
      if py_strip (pyStr v) = "" then extra_tags headers row
      else py_strip (pyStr v) :: extra_tags headers row

/-- The merged tag string: the tag sequence joined by the separator, or
None when the sequence is empty. -/
def merged_tags (headers : List String) (cm : List (String × String)) (row : Row) :
    Option String :=
  let l := tag_seq headers cm row
  if l.isEmpty then none else some (String.intercalate " | " l)

/-- The note_id a note row gets: when the canonical field resolved to a
column the cell must be truthy (otherwise the row is skipped, yielding
none), and its str() is used; when it never resolved, the id is
synthesized from the 1-based row index. -/
def note_id_of (cm : List (String × String)) (row : Row) (idx : Nat) :
    Option String :=
  if (cm.lookup "note_id").isSome then
    let v := get_value row cm "note_id" none
    if truthy v then some (pyStrOpt v) else none
  else some ("row_" ++ toString (idx + 1))

/-- Build one XhsNote object from a row: the time coercion runs first,
then the record is assembled, with the four count coercions evaluated in
constructor-argument order; a falsy user_id cell substitutes the
placeholder unknown. -/
def mkNote (pdm : Value → Option Int) (headers : List String)
    (cm : List (String × String)) (row : Row) (nid : String) (nowMs : Int) :
    Except PyError NoteRecord :=
  match to_ts_ms pdm (get_value row cm "time" none) (some nowMs),
        int0_str (get_value row cm "liked_count" none),
        int0_str (get_value row cm "collected_count" none),
        int0_str (get_value row cm "comment_count" none),
        int0_str (get_value row cm "share_count" none) with
  | .error e, _, _, _, _ => .error e
  | _, .error e, _, _, _ => .error e
  | _, _, .error e, _, _ => .error e
  | _, _, _, .error e, _ => .error e
  | _, _, _, _, .error e => .error e
  | .ok t, .ok lk, .ok co, .ok cm2, .ok sh =>
      let u := get_value row cm "user_id" none
      .ok { user_id := if truthy u then pyStrOpt u else "unknown"
            nickname := get_value row cm "nickname" none
            avatar := get_value row cm "avatar" none
            ip_location := get_value row cm "ip_location" none
            add_ts := nowMs
            last_modify_ts := nowMs
            note_id := nid
            title := get_value row cm "title" none
            desc := get_value row cm "desc" none
            time := t.getD nowMs
            last_update_time := nowMs
            liked_count := lk
            collected_count := co
            comment_count := cm2
            share_count := sh
            tag_list := merged_tags headers cm row
            note_url := get_value row cm "note_url" none
            source_keyword := get_value row cm "source_keyword" none }

/-- The note loop, carrying the zero-based row position: a row whose
note_id is unavailable is skipped, every other row is materialized. -/
def note_rows (pdm : Value → Option Int) (headers : List String)
    (cm : List (String × String)) (nowMs : Int) :
    List Row → Nat → Except PyError (List NoteRecord)
  | [], _ => .ok []
  | row :: rest, idx =>
      match note_id_of cm row idx with
      | none => note_rows pdm headers cm nowMs rest (idx + 1)
      | some nid =>
          match mkNote pdm headers cm row nid nowMs with
          | .error e => .error e
          | .ok obj =>
              match note_rows pdm headers cm nowMs rest (idx + 1) with
              | .error e => .error e
              | .ok tail => .ok (obj :: tail)

/-- The note section: nothing when the sheet is absent or empty,
otherwise the loop from position zero (note_id missing from the column
map only triggers a warning, not a skip of the section). -/
def process_notes (pdm : Value → Option Int) (sheet : Option Sheet) (nowMs : Int) :
    Except PyError (Option (List NoteRecord)) :=
  match sheet with
  | none => .ok none
  | some sh =>
      if sh.rows.isEmpty then .ok none
      else
        let cm := build_col_map sh.headers NOTE_ALIASES
        (note_rows pdm sh.headers cm nowMs sh.rows 0).map some

/-- A persisted xhs_note_comment record. -/
structure CommentRecord where
  user_id : Option String
  nickname : Option Value
  avatar : Option Value
  ip_location : Option Value
  add_ts : Int
  last_modify_ts : Int
  comment_id : String
  create_time : Int
  note_id : String
  content : Option Value
  sub_comment_count : Int
  pictures : Option Value
  parent_comment_id : Option Value
  like_count : String
deriving Repr, DecidableEq

/-- Build one XhsNoteComment object from a row: the create_time coercion
runs first, then sub_comment_count and like_count in constructor-argument
order (the source writes to_int(..., 0) or 0 for sub_comment_count,
which is the identity on the integer the coercion returns). -/
def mkComment (pdm : Value → Option Int) (cm : List (String × String))
    (row : Row) (cid nid : String) (nowMs : Int) :
    Except PyError CommentRecord :=
  match to_ts_ms pdm (get_value row cm "create_time" none) (some nowMs),
        to_int (get_value row cm "sub_comment_count" none) (some 0),
        int0_str (get_value row cm "like_count" none) with
  | .error e, _, _ => .error e
  | _, .error e, _ => .error e
  | _, _, .error e => .error e
  | .ok ct, .ok sc, .ok lk =>
      let u := get_value row cm "user_id" none
      .ok { user_id := if truthy u then some (pyStrOpt u) else none
            nickname := get_value row cm "nickname" none
            avatar := get_value row cm "avatar" none
            ip_location := get_value row cm "ip_location" none
            add_ts := nowMs
            last_modify_ts := nowMs
            comment_id := cid
            create_time := ct.getD nowMs
            note_id := nid
            content := get_value row cm "content" none
            sub_comment_count := sc.getD 0
            pictures := get_value row cm "pictures" none
            parent_comment_id := get_value row cm "parent_comment_id" none
            like_count := lk }

/-- The comment_id and note_id strings a comment row contributes, none
when either cell is falsy and the row is skipped. -/
def comment_ids (cm : List (String × String)) (row : Row) : Option (String × String) :=
  let c := get_value row cm "comment_id" none
  let n := get_value row cm "note_id" none
  if truthy c && truthy n then some (pyStrOpt c, pyStrOpt n) else none

/-- The comment loop: a row with a falsy comment_id or note_id cell is
skipped, every other row is materialized. -/
def comment_rows (pdm : Value → Option Int) (cm : List (String × String))
    (nowMs : Int) : List Row → Except PyError (List CommentRecord)
  | [] => .ok []
  | row :: rest =>
      match comment_ids cm row with
      | none => comment_rows pdm cm nowMs rest
      | some p =>
          match mkComment pdm cm row p.1 p.2 nowMs with
          | .error e => .error e
          | .ok obj =>
              match comment_rows pdm cm nowMs rest with
              | .error e => .error e
              | .ok tail => .ok (obj :: tail)

/-- The comment section: nothing when the sheet is absent or empty or
when comment_id or note_id resolves to no column; otherwise the loop. -/
def process_comments (pdm : Value → Option Int) (sheet : Option Sheet)
    (nowMs : Int) : Except PyError (Option (List CommentRecord)) :=
  match sheet with
  | none => .ok none
  | some sh =>
      if sh.rows.isEmpty then .ok none
      else
        let cm := build_col_map sh.headers COMMENT_ALIASES
        if (cm.lookup "comment_id").isNone ∨ (cm.lookup "note_id").isNone then .ok none
        else (comment_rows pdm cm nowMs sh.rows).map some

/-- The three batches one import run emits; none marks a section that was
skipped entirely. -/
structure RunResult where
  creators : Option (List CreatorRecord)
  notes : Option (List NoteRecord)
  comments : Option (List CommentRecord)
deriving Repr, DecidableEq

/-- The orchestrator body after layout detection: process the creator,
note and comment sections in that order; a raised error aborts the run. -/
def import_run (pdm : Value → Option Int) (nowMs : Int)
    (dfCreators dfNotes dfComments : Option Sheet) : Except PyError RunResult :=
  match process_creators dfCreators nowMs with
  | .error e => .error e
  | .ok cs =>
      match process_notes pdm dfNotes nowMs with
      | .error e => .error e
      | .ok ns =>
          match process_comments pdm dfComments nowMs with
          | .error e => .error e
          | .ok cms => .ok { creators := cs, notes := ns, comments := cms }

/-- From the claim wording for alias resolution: the first alias with an
exact case-insensitive match among the headers, mapped to the header
label the lookup stores for it. -/
def first_alias_match (headers : List String) (names : List String) : Option String :=
  (names.find? (fun n => headers.any (fun c => py_lower c == py_lower n))).bind
    (fun n => dict_get headers (py_lower n))

/-- From the amended wording for the duplicate-header policy: the last
header label whose lowercase form equals the key. -/
def last_match : List String → String → Option String
  | [], _ => none
  | c :: rest, key =>
      match last_match rest key with
      | some r => some r
      | none => if py_lower c == key then some c else none

/-- From the claim wording for the tag merge: the stripped tag_list value
first when present and nonblank, then the nonblank stripped text values
of the auxiliary columns present in the sheet, in their fixed order. -/
def spec_tag_seq (headers : List String) (cm : List (String × String)) (row : Row) :
    List String :=
  (match get_value row cm "tag_list" none with
   | none => []
   | some v =>
      if py_strip (pyStr v) = "" then [] else [py_strip (pyStr v)]) ++
  (extra_tag_cols.filter (fun c => headers.contains c)).filterMap (fun c =>
    match row c with
    | .text s => if py_strip s = "" then none else some (py_strip s)
    | _ => none)

/-- From the claim wording for the tag merge: join the sequence with the
separator, null when it is empty. -/
def spec_merged_tags (headers : List String) (cm : List (String × String))
    (row : Row) : Option String :=
  if spec_tag_seq headers cm row = [] then none
  else some (String.intercalate " | " (spec_tag_seq headers cm row))

/-- The given row is the first row of the list whose user_id cell
contributes the string s. -/
def is_first_with (cm : List (String × String)) (rows : List Row) (s : String)
    (row : Row) : Prop :=
  ∃ l1 l2, rows = l1 ++ row :: l2 ∧ uid_str cm row = some s ∧
    ∀ q ∈ l1, uid_str cm q ≠ some s

/-- A nonempty string has positive length. -/
theorem length_pos_of_ne_empty (s : String) (h : s ≠ "") : 0 < s.length := by
  cases s with
  | mk data =>
    cases data with
    | nil => simp at h
    | cons c cs => simp [String.length]

/-- The accumulator length never shrinks in the intercalate loop. -/
theorem intercalate_go_length (sep : String) :
    ∀ (as : List String) (acc : String),
      acc.length ≤ (String.intercalate.go acc sep as).length := by
  intro as
  induction as with
  | nil => intro acc; simp [String.intercalate.go]
  | cons a as ih =>
      intro acc
      have h1 : String.intercalate.go acc sep (a :: as) =
          String.intercalate.go (acc ++ sep ++ a) sep as := by
        simp [String.intercalate.go]
      have h2 := ih (acc ++ sep ++ a)
      have h3 : (acc ++ sep ++ a).length = acc.length + sep.length + a.length := by
        simp [String.length_append]
      rw [h1]
      omega

/-- Joining a list whose head is nonempty never gives the empty string. -/
theorem intercalate_ne_empty (sep a : String) (as : List String) (h : a ≠ "") :
    String.intercalate sep (a :: as) ≠ "" := by
  intro he
  have h1 : String.intercalate sep (a :: as) = String.intercalate.go a sep as := rfl
  have h2 := intercalate_go_length sep as a
  rw [← h1, he] at h2
  have h3 := length_pos_of_ne_empty a h
  simp at h2
  omega

/-- A successfully built creator record carries the given user_id and the
raw nickname cell. -/
theorem mkCreator_ok_fields (cm : List (String × String)) (row : Row) (uid : String)
    (nowMs : Int) (r : CreatorRecord) (h : mkCreator cm row uid nowMs = .ok r) :
    r.user_id = uid ∧ r.nickname = get_value row cm "nickname" none := by
  unfold mkCreator at h
  repeat' split at h
  all_goals first
    | exact Except.noConfusion h
    | (injection h with h2; subst h2; exact ⟨rfl, rfl⟩)

/-- A successfully built note record carries the given note_id, the
truthiness-guarded user_id with the unknown placeholder, and the merged
tag string. -/
theorem mkNote_ok_fields (pdm : Value → Option Int) (headers : List String)
    (cm : List (String × String)) (row : Row) (nid : String) (nowMs : Int)
    (r : NoteRecord) (h : mkNote pdm headers cm row nid nowMs = .ok r) :
    r.note_id = nid ∧
    r.user_id = (if truthy (get_value row cm "user_id" none)
                 then pyStrOpt (get_value row cm "user_id" none) else "unknown") ∧
    r.tag_list = merged_tags headers cm row := by
  unfold mkNote at h
  repeat' split at h
  all_goals first
    | exact Except.noConfusion h
    | (injection h with h2; subst h2; exact ⟨rfl, rfl, rfl⟩)

/-- A successfully built comment record carries the given comment_id and
note_id. -/
theorem mkComment_ok_fields (pdm : Value → Option Int) (cm : List (String × String))
    (row : Row) (cid nid : String) (nowMs : Int) (r : CommentRecord)
    (h : mkComment pdm cm row cid nid nowMs = .ok r) :
    r.comment_id = cid ∧ r.note_id = nid := by
  unfold mkComment at h
  repeat' split at h
  all_goals first
    | exact Except.noConfusion h
    | (injection h with h2; subst h2; exact ⟨rfl, rfl⟩)

/-- C8 counterexample: on a native infinite float the integer coercion
neither truncates toward zero nor returns the caller-supplied default:
int() raises an OverflowError that the except ValueError clause does not
catch, and the error propagates. -/
theorem c8_overflow_counterexample :
    to_int (some (.float (.inf false))) (some 0) = .error .overflowError ∧
    ¬ to_int (some (.float (.inf false))) (some 0) = .ok (some 0) := by
  refine ⟨rfl, fun h => ?_⟩
  rw [show to_int (some (.float (.inf false))) (some 0)
      = .error .overflowError from rfl] at h
  exact Except.noConfusion h

/-- C8 amended: integer coercion passes native integers through,
truncates native finite floats toward zero (129/10 to 12 and -39/10 to
-3), parses nonblank numeric text through float() and truncates the same
way (the text 12.9 gives 12), and yields the caller-supplied default for
non-numeric text, null/blank values and date-time values — except that
an infinite float, native or produced by text parsing, raises an
uncaught OverflowError instead. -/
theorem c8_to_int_coercion :
    (∀ (n : Int) (d : Option Int), to_int (some (.int n)) d = .ok (some n)) ∧
    (∀ (q : ℚ) (d : Option Int),
      to_int (some (.float (.finite q))) d = .ok (some (truncQ q))) ∧
    to_int (some (.float (.finite (mkRat 129 10)))) none = .ok (some 12) ∧
    to_int (some (.float (.finite (mkRat (-39) 10)))) none = .ok (some (-3)) ∧
    (∀ (s : String) (q : ℚ) (d : Option Int), ¬ py_strip s = "" →
      pyFloat s = some (.finite q) →
      to_int (some (.text s)) d = .ok (some (truncQ q))) ∧
    to_int (some (.text "12.9")) none = .ok (some 12) ∧
    (∀ (s : String) (d : Option Int), ¬ py_strip s = "" → pyFloat s = none →
      to_int (some (.text s)) d = .ok d) ∧
    (∀ (d : Option Int), to_int (some (.text "abc")) d = .ok d) ∧
    (∀ (d : Option Int), to_int none d = .ok d) ∧
    (∀ (d : Option Int), to_int (some .na) d = .ok d) ∧
    (∀ (s : String) (d : Option Int), py_strip s = "" → to_int (some (.text s)) d = .ok d) ∧
    (∀ (ms : Int) (d : Option Int), to_int (some (.datetime ms)) d = .ok d) ∧
    (∀ (b : Bool) (d : Option Int),
      to_int (some (.float (.inf b))) d = .error .overflowError) ∧
    (∀ (s : String) (b : Bool) (d : Option Int), ¬ py_strip s = "" →
      pyFloat s = some (.inf b) →
      to_int (some (.text s)) d = .error .overflowError) := by
  refine ⟨fun n d => rfl, fun q d => rfl, by decide, by decide, ?_, by decide,
    ?_, fun d => rfl, fun d => rfl, fun d => rfl, ?_, fun ms d => rfl,
    fun b d => rfl, ?_⟩
  · intro s q d h1 h2
    simp [to_int, h1, h2]
  · intro s d h1 h2
    simp [to_int, h1, h2]
  · intro s d h1
    simp [to_int, h1]
  · intro s b d h1 h2
    simp [to_int, h1, h2]

/-- Witness for c8_to_int_coercion: the text 2.5 is nonblank, parses to
the finite rational 5/2 and coerces to its truncation. -/
theorem c8_to_int_coercion_witness :
    ¬ py_strip "2.5" = "" ∧ pyFloat "2.5" = some (.finite (mkRat 5 2)) ∧
    to_int (some (.text "2.5")) none = .ok (some (truncQ (mkRat 5 2))) :=
  ⟨by decide, by decide,
    c8_to_int_coercion.2.2.2.2.1 "2.5" (mkRat 5 2) none (by decide) (by decide)⟩

/-- C4 counterexample: the text inf passes the integer branch of float()
and then int() raises OverflowError, which the except ValueError clause
does not catch, so the coercion propagates an error to the caller
instead of returning the default. -/
theorem c4_total_counterexample :
    to_int (some (.text "inf")) (some 0) = .error .overflowError ∧
    ¬ to_int (some (.text "inf")) (some 0) = .ok (some 0) := by
  refine ⟨rfl, fun h => ?_⟩
  rw [show to_int (some (.text "inf")) (some 0) = .error .overflowError from rfl] at h
  exact Except.noConfusion h

/-- C4 amended: both coercions return the coerced value or the default
for every input except an infinite float, native or produced by text
parsing, where an uncaught OverflowError propagates; the timestamp
coercion errors exactly when its integer-coercion step errors. -/
theorem c4_totality_amended :
    (∀ (o : Option Value) (d : Option Int),
      (∃ e, to_int o d = .error e) ↔
        ((∃ b, o = some (.float (.inf b))) ∨
          (∃ s b, o = some (.text s) ∧ pyFloat s = some (.inf b) ∧ ¬ py_strip s = ""))) ∧
    (∀ (pdm : Value → Option Int) (o : Option Value) (d : Option Int),
      (∃ e, to_ts_ms pdm o d = .error e) ↔ (∃ e, to_int o none = .error e)) := by
  constructor
  · intro o d
    match o with
    | none => simp [to_int]
    | some .na => simp [to_int]
    | some (.int n) => simp [to_int]
    | some (.datetime ms) => simp [to_int]
    | some (.float (.finite q)) => simp [to_int]
    | some (.float (.inf b)) =>
        exact ⟨fun _ => Or.inl ⟨b, rfl⟩, fun _ => ⟨.overflowError, rfl⟩⟩
    | some (.float .nan) => simp [to_int]
    | some (.text s) =>
        by_cases ht : py_strip s = ""
        · simp [to_int, ht]
        · match hp : pyFloat s with
          | none => simp [to_int, ht, hp]
          | some (.finite q) => simp [to_int, ht, hp]
          | some (.inf b) =>
              simp [to_int, ht, hp]
              exact ⟨.overflowError, trivial⟩
          | some .nan => simp [to_int, ht, hp]
  · intro pdm o d
    match h : to_int o none with
    | .error e => simp [to_ts_ms, h]
    | .ok (some n) => simp [to_ts_ms, h]
    | .ok none =>
        match o with
        | none => simp [to_ts_ms, h]
        | some .na => simp [to_ts_ms, h]
        | some (.int n) => simp [to_int] at h
        | some (.float (.finite q)) => simp [to_int] at h
        | some (.float (.inf b)) => simp [to_int] at h
        | some (.float .nan) => simp [to_ts_ms, h]
        | some (.text s) =>
            cases hp : pdm (.text s) <;> simp [to_ts_ms, h, hp]
        | some (.datetime ms) =>
            cases hp : pdm (.datetime ms) <;> simp [to_ts_ms, h, hp]

/-- C3 counterexample: on the text infinity the integer-coercion step
raises an uncaught OverflowError instead of failing over to generic
date parsing, so the timestamp coercion neither attempts the parse nor
returns the supplied default. -/
theorem c3_ts_counterexample :
    to_ts_ms (fun _ => none) (some (.text "infinity")) (some 5)
      = .error .overflowError ∧
    ¬ to_ts_ms (fun _ => none) (some (.text "infinity")) (some 5) = .ok (some 5) := by
  refine ⟨by decide, fun h => ?_⟩
  rw [show to_ts_ms (fun _ => none) (some (.text "infinity")) (some 5)
      = .error .overflowError by decide] at h
  exact Except.noConfusion h

/-- C3 amended: when the integer-coercion step returns an integer, that
integer is the result literally (in particular 1700000000 stays
1700000000); when it returns the default sentinel, the external
date-time parse decides the result, with the supplied default on
failure and for null input; when it raises (only on infinite-float
inputs) the error propagates. -/
theorem c3_ts_literal_policy :
    (∀ (pdm : Value → Option Int) (o : Option Value) (d : Option Int) (n : Int),
      to_int o none = .ok (some n) → to_ts_ms pdm o d = .ok (some n)) ∧
    (∀ (pdm : Value → Option Int) (d : Option Int),
      to_ts_ms pdm (some (.int 1700000000)) d = .ok (some 1700000000)) ∧
    (∀ (pdm : Value → Option Int) (v : Value) (d : Option Int) (ms : Int),
      to_int (some v) none = .ok none → ¬ v = .na → ¬ v = .float .nan →
      pdm v = some ms → to_ts_ms pdm (some v) d = .ok (some ms)) ∧
    (∀ (pdm : Value → Option Int) (v : Value) (d : Option Int),
      to_int (some v) none = .ok none → pdm v = none →
      to_ts_ms pdm (some v) d = .ok d) ∧
    (∀ (pdm : Value → Option Int) (d : Option Int), to_ts_ms pdm none d = .ok d) ∧
    (∀ (pdm : Value → Option Int) (d : Option Int),
      to_ts_ms pdm (some .na) d = .ok d) ∧
    (∀ (pdm : Value → Option Int) (o : Option Value) (d : Option Int) (e : PyError),
      to_int o none = .error e → to_ts_ms pdm o d = .error e) := by
  refine ⟨?_, fun pdm d => rfl, ?_, ?_, fun pdm d => rfl, fun pdm d => rfl, ?_⟩
  · intro pdm o d n h
    simp [to_ts_ms, h]
  · intro pdm v d ms h1 hna hnan h2
    match v with
    | .na => exact absurd rfl hna
    | .float .nan => exact absurd rfl hnan
    | .int n => simp [to_int] at h1
    | .float (.finite q) => simp [to_int] at h1
    | .float (.inf b) => simp [to_int] at h1
    | .text s => simp [to_ts_ms, h1, h2]
    | .datetime ms2 => simp [to_ts_ms, h1, h2]
  · intro pdm v d h1 h2
    match v with
    | .na => simp [to_ts_ms, h1]
    | .float .nan => simp [to_ts_ms, h1]
    | .int n => simp [to_int] at h1
    | .float (.finite q) => simp [to_int] at h1
    | .float (.inf b) => simp [to_int] at h1
    | .text s => simp [to_ts_ms, h1, h2]
    | .datetime ms2 => simp [to_ts_ms, h1, h2]
  · intro pdm o d e h
    simp [to_ts_ms, h]

/-- Witness for c3_ts_literal_policy: a native integer cell coerces to
itself and is returned literally as the timestamp. -/
theorem c3_ts_literal_policy_witness :
    to_int (some (.int 5)) none = .ok (some 5) ∧
    to_ts_ms (fun _ => none) (some (.int 5)) (some 9) = .ok (some 5) :=
  ⟨rfl, c3_ts_literal_policy.1 (fun _ => none) (some (.int 5)) (some 9) 5 rfl⟩

/-- C5 counterexample: with the case-insensitively duplicate headers
Note_ID and NOTE_id, the field note_id does not resolve to the first
occurrence Note_ID. -/
theorem c5_first_occurrence_counterexample :
    ¬ (build_col_map ["Note_ID", "NOTE_id"] NOTE_ALIASES).lookup "note_id"
      = some "Note_ID" := by
  decide

/-- C5 amended: the dict comprehension keeps the last occurrence among
case-insensitively equal header labels, so a matching field resolves to
the last such header label in header order (NOTE_id in the example). -/
theorem c5_last_occurrence_wins :
    (∀ (headers : List String) (key : String),
      dict_get headers key = last_match headers key) ∧
    (build_col_map ["Note_ID", "NOTE_id"] NOTE_ALIASES).lookup "note_id"
      = some "NOTE_id" := by
  constructor
  · intro headers key
    induction headers with
    | nil => rfl
    | cons c rest ih =>
        have h1 : dict_get (c :: rest) key =
            (dict_get rest key).or (List.find? (fun x => py_lower x == key) [c]) := by
          simp [dict_get, List.find?_append]
        rw [h1, ih]
        cases h2 : last_match rest key with
        | some r => simp [last_match, h2, Option.or]
        | none =>
            cases hp : (py_lower c == key) <;>
              simp [last_match, h2, hp, List.find?, Option.or]
  · decide

/-- C10: required identity cells are judged by Python truthiness, so a
numeric 0 cell behaves like an empty cell: the creator row is dropped,
the note user_id becomes the unknown placeholder, and a comment row
with 0 in comment_id or note_id is skipped. -/
theorem c10_falsy_zero_policy :
    (∀ (cm : List (String × String)) (row : Row),
      get_value row cm "user_id" none = some (.int 0) → uid_str cm row = none) ∧
    (∀ (pdm : Value → Option Int) (headers : List String)
      (cm : List (String × String)) (row : Row) (nid : String) (nowMs : Int)
      (r : NoteRecord), mkNote pdm headers cm row nid nowMs = .ok r →
      get_value row cm "user_id" none = some (.int 0) → r.user_id = "unknown") ∧
    (∀ (cm : List (String × String)) (row : Row),
      (get_value row cm "comment_id" none = some (.int 0) ∨
        get_value row cm "note_id" none = some (.int 0)) →
      comment_ids cm row = none) ∧
    process_creators (some ⟨["user_id", "nickname"],
      [fun c => if c = "user_id" then .int 0 else
        if c = "nickname" then .text "A" else .na]⟩) 7 = .ok (some []) ∧
    (process_notes (fun _ => none) (some ⟨["note_id", "user_id"],
      [fun c => if c = "note_id" then .text "n1" else
        if c = "user_id" then .int 0 else .na]⟩) 7).map
      (fun o => o.map (fun l => l.map (fun r => r.user_id))) = .ok (some ["unknown"]) ∧
    process_comments (fun _ => none) (some ⟨["comment_id", "note_id"],
      [fun c => if c = "comment_id" then .int 0 else
        if c = "note_id" then .text "n1" else .na]⟩) 7 = .ok (some []) ∧
    process_comments (fun _ => none) (some ⟨["comment_id", "note_id"],
      [fun c => if c = "comment_id" then .text "c1" else
        if c = "note_id" then .int 0 else .na]⟩) 7 = .ok (some []) := by
  refine ⟨?_, ?_, ?_, by decide, by decide, by decide, by decide⟩
  · intro cm row h
    simp [uid_str, h, truthy]
  · intro pdm headers cm row nid nowMs r h h0
    have hf := (mkNote_ok_fields pdm headers cm row nid nowMs r h).2.1
    rw [h0] at hf
    simpa [truthy] using hf
  · intro cm row h
    rcases h with h | h <;> simp [comment_ids, h, truthy]

/-- Witness for c10_falsy_zero_policy: a concrete row whose user_id cell
is the integer 0 contributes no creator user_id. -/
theorem c10_falsy_zero_policy_witness :
    get_value (fun _ => Value.int 0) [("user_id", "user_id")] "user_id" none
      = some (.int 0) ∧
    uid_str [("user_id", "user_id")] (fun _ => Value.int 0) = none :=
  ⟨rfl, c10_falsy_zero_policy.1 [("user_id", "user_id")] (fun _ => Value.int 0) rfl⟩

/-- A hit of the header dict is a header whose lowercase form is the key. -/
theorem dict_get_some_lower (headers : List String) (key c : String)
    (h : dict_get headers key = some c) : py_lower c = key := by
  rw [dict_get] at h
  have h1 := List.find?_some (p := fun x => py_lower x == key) h
  exact eq_of_beq h1

/-- Lowercasing sends only the empty string to the empty string. -/
theorem py_lower_eq_empty (s : String) (h : py_lower s = "") : s = "" := by
  cases s with
  | mk data =>
      cases data with
      | nil => rfl
      | cons a l =>
          have h2 := congrArg String.data h
          simp [py_lower] at h2

/-- The header dict has a hit exactly when some header lowercases to the
key. -/
theorem dict_get_isSome_eq (headers : List String) (key : String) :
    (dict_get headers key).isSome = headers.any (fun c => py_lower c == key) := by
  simp only [dict_get]
  cases hf : headers.reverse.find? (fun c => py_lower c == key) with
  | some c =>
      have h1 := List.find?_some (p := fun x => py_lower x == key) hf
      have h2 : c ∈ headers := List.mem_reverse.mp (List.mem_of_find?_eq_some hf)
      simp only [Option.isSome]
      exact (List.any_eq_true.mpr ⟨c, h2, h1⟩).symm
  | none =>
      have h1 := List.find?_eq_none.mp hf
      simp only [Option.isSome]
      symm
      rw [List.any_eq_false]
      intro x hx
      exact h1 x (List.mem_reverse.mpr hx)

/-- On alias lists without blank aliases, the source loop for one field
computes exactly the specification order: the first alias with a
case-insensitive header match wins. -/
theorem resolve_field_eq_first (headers : List String) (names : List String)
    (h : ∀ n ∈ names, ¬ py_lower n = "") :
    resolve_field headers names = first_alias_match headers names := by
  induction names with
  | nil => rfl
  | cons n rest ih =>
      have hn : ¬ py_lower n = "" := h n (by simp)
      have hrest : ∀ m ∈ rest, ¬ py_lower m = "" := fun m hm => h m (by simp [hm])
      cases hd : dict_get headers (py_lower n) with
      | some col =>
          have hcol : py_lower col = py_lower n := dict_get_some_lower headers _ col hd
          have hne : ¬ col = "" := by
            intro hc
            subst hc
            exact hn (by rw [← hcol]; rfl)
          have hany : headers.any (fun c => py_lower c == py_lower n) = true := by
            rw [← dict_get_isSome_eq, hd]
            rfl
          rw [show resolve_field headers (n :: rest)
              = some col by simp [resolve_field, hd, hne]]
          simp [first_alias_match, List.find?, hany, hd]
      | none =>
          have hany : headers.any (fun c => py_lower c == py_lower n) = false := by
            rw [← dict_get_isSome_eq, hd]
            rfl
          rw [show resolve_field headers (n :: rest)
              = resolve_field headers rest by simp [resolve_field, hd]]
          rw [ih hrest]
          simp [first_alias_match, List.find?, hany]

/-- Unfolding of the column-map construction on one schema entry. -/
theorem build_col_map_cons (headers : List String) (p : String × List String)
    (rest : List (String × List String)) :
    build_col_map headers (p :: rest) =
      (match resolve_field headers p.2 with
       | none => build_col_map headers rest
       | some col => (p.1, col) :: build_col_map headers rest) := by
  cases hr : resolve_field headers p.2 <;>
    simp [build_col_map, List.filterMap_cons, hr]

/-- A field that heads no schema entry is absent from the column map. -/
theorem lookup_build_col_map_not_mem (headers : List String)
    (aliases : List (String × List String)) (field : String)
    (h : ∀ p ∈ aliases, ¬ p.1 = field) :
    (build_col_map headers aliases).lookup field = none := by
  induction aliases with
  | nil => rfl
  | cons a rest ih =>
      have h1 : ¬ a.1 = field := h a (by simp)
      have h2 : ∀ p ∈ rest, ¬ p.1 = field := fun p hp => h p (by simp [hp])
      rw [build_col_map_cons]
      cases hr : resolve_field headers a.2 with
      | none => exact ih h2
      | some col =>
          have hbe : (field == a.1) = false := by
            simp
            intro hf
            exact h1 hf.symm
          simp only [List.lookup, hbe]
          exact ih h2

/-- Looking a schema field up in the built column map runs exactly the
per-field alias loop of the source. -/
theorem lookup_build_col_map (headers : List String)
    (aliases : List (String × List String)) (field : String) (names : List String)
    (hnd : (aliases.map Prod.fst).Nodup) (hmem : (field, names) ∈ aliases) :
    (build_col_map headers aliases).lookup field = resolve_field headers names := by
  induction aliases with
  | nil => cases hmem
  | cons a rest ih =>
      obtain ⟨f0, ns0⟩ := a
      rw [List.map_cons, List.nodup_cons] at hnd
      rw [build_col_map_cons]
      rcases List.mem_cons.mp hmem with heq | htail
      · injection heq with hf hn
        subst hf
        subst hn
        cases hr : resolve_field headers names with
        | some col => simp [List.lookup]
        | none =>
            refine lookup_build_col_map_not_mem headers rest field ?_
            intro p hp hpf
            exact hnd.1 (List.mem_map.mpr ⟨p, hp, hpf⟩)
      · have hne : (field == f0) = false := by
          simp
          intro h1
          exact hnd.1 (List.mem_map.mpr ⟨(field, names), htail, h1⟩)
        cases hr : resolve_field headers ns0 with
        | none => exact ih hnd.2 htail
        | some col =>
            simp only [List.lookup, hne]
            exact ih hnd.2 htail

/-- C1: for a schema with distinct field names and no blank aliases,
alias resolution maps each canonical field to the result of scanning the
alias list strictly in declaration order, where the first alias with an
exact case-insensitive header match wins and resolution stops, and the
field is absent exactly when no alias matches any header; with headers
点赞 and 赞, the field liked_count resolves to 点赞, and the header
Note_ID resolves the alias note_id. -/
theorem c1_alias_resolution :
    (∀ (headers : List String) (aliases : List (String × List String))
      (field : String) (names : List String),
      (aliases.map Prod.fst).Nodup → (field, names) ∈ aliases →
      (∀ n ∈ names, ¬ py_lower n = "") →
      (build_col_map headers aliases).lookup field
          = first_alias_match headers names ∧
      ((build_col_map headers aliases).lookup field = none ↔
        ∀ n ∈ names, ∀ c ∈ headers, ¬ py_lower c = py_lower n)) ∧
    (build_col_map ["点赞", "赞"] NOTE_ALIASES).lookup "liked_count" = some "点赞" ∧
    (build_col_map ["Note_ID"] NOTE_ALIASES).lookup "note_id" = some "Note_ID" := by
  refine ⟨?_, by decide, by decide⟩
  intro headers aliases field names hnd hmem hne
  have h1 : (build_col_map headers aliases).lookup field
      = first_alias_match headers names := by
    rw [lookup_build_col_map headers aliases field names hnd hmem]
    exact resolve_field_eq_first headers names hne
  refine ⟨h1, ?_⟩
  rw [h1]
  constructor
  · intro h0 n hn c hc hlc
    cases hf : names.find? (fun m => headers.any (fun x => py_lower x == py_lower m)) with
    | none =>
        have h2 := List.find?_eq_none.mp hf n hn
        exact h2 (List.any_eq_true.mpr ⟨c, hc, beq_iff_eq.mpr hlc⟩)
    | some m =>
        have hp := List.find?_some (p := fun m => headers.any (fun x => py_lower x == py_lower m)) hf
        have hs : (dict_get headers (py_lower m)).isSome = true := by
          rw [dict_get_isSome_eq]
          exact hp
        rw [first_alias_match, hf] at h0
        simp at h0
        rw [h0] at hs
        simp at hs
  · intro hall
    have hf : names.find? (fun m => headers.any (fun x => py_lower x == py_lower m)) = none := by
      rw [List.find?_eq_none]
      intro n hn hany
      rcases List.any_eq_true.mp hany with ⟨c, hc, hbc⟩
      exact hall n hn c hc (eq_of_beq hbc)
    rw [first_alias_match, hf]
    rfl

/-- Witness for c1_alias_resolution: the liked_count schema entry over
the headers 点赞 and 赞 discharges the hypotheses, and resolution agrees
with the first-matching-alias rule. -/
theorem c1_alias_resolution_witness :
    ((([("liked_count", ["liked_count", "点赞", "赞", "互动量"])]
        : List (String × List String)).map Prod.fst).Nodup ∧
      ("liked_count", ["liked_count", "点赞", "赞", "互动量"])
        ∈ [("liked_count", ["liked_count", "点赞", "赞", "互动量"])] ∧
      (∀ n ∈ ["liked_count", "点赞", "赞", "互动量"], ¬ py_lower n = "")) ∧
    ((build_col_map ["点赞", "赞"]
        [("liked_count", ["liked_count", "点赞", "赞", "互动量"])]).lookup "liked_count"
        = first_alias_match ["点赞", "赞"] ["liked_count", "点赞", "赞", "互动量"] ∧
      ((build_col_map ["点赞", "赞"]
          [("liked_count", ["liked_count", "点赞", "赞", "互动量"])]).lookup "liked_count" = none ↔
        ∀ n ∈ ["liked_count", "点赞", "赞", "互动量"], ∀ c ∈ ["点赞", "赞"],
          ¬ py_lower c = py_lower n)) :=
  ⟨⟨by decide, by decide, by decide⟩,
    c1_alias_resolution.1 ["点赞", "赞"] _ "liked_count" _ (by decide) (by decide)
      (by decide)⟩

/-- Mapping over a filtered list is the same as one filterMap with the
filter folded into the condition. -/
theorem filterMap_filter_eq (p : String → Bool) (f : String → Option String) :
    ∀ l : List String,
      (l.filter p).filterMap f
        = l.filterMap (fun c => if p c then f c else none) := by
  intro l
  induction l with
  | nil => rfl
  | cons c rest ih =>
      cases hp : p c <;>
        simp [List.filter_cons, List.filterMap_cons, hp, ih]

/-- The tag sequence the code builds equals the sequence the
specification describes. -/
theorem tag_seq_eq_spec (headers : List String) (cm : List (String × String))
    (row : Row) : tag_seq headers cm row = spec_tag_seq headers cm row := by
  rw [tag_seq, spec_tag_seq, filterMap_filter_eq]
  cases hg : get_value row cm "tag_list" none with
  | none => simp [extra_tags]
  | some v =>
      by_cases hb : py_strip (pyStr v) = "" <;> simp [hb, extra_tags]

/-- Unfolding of the tag sequence when tag_list resolves to nothing. -/
theorem tag_seq_none (headers : List String) (cm : List (String × String))
    (row : Row) (hg : get_value row cm "tag_list" none = none) :
    tag_seq headers cm row = extra_tags headers row := by
  rw [tag_seq, hg]

/-- Unfolding of the tag sequence when tag_list resolves to a value. -/
theorem tag_seq_some (headers : List String) (cm : List (String × String))
    (row : Row) (v : Value) (hg : get_value row cm "tag_list" none = some v) :
    tag_seq headers cm row =
      (if py_strip (pyStr v) = "" then extra_tags headers row
       else py_strip (pyStr v) :: extra_tags headers row) := by
  rw [tag_seq, hg]

/-- Every auxiliary tag value is a nonblank string. -/
theorem extra_tags_ne_empty (headers : List String) (row : Row) :
    ∀ x ∈ extra_tags headers row, ¬ x = "" := by
  intro x hx
  rcases List.mem_filterMap.mp hx with ⟨c, hc, hfc⟩
  by_cases hco : headers.contains c
  · rw [if_pos hco] at hfc
    match hrow : row c with
    | .na =>
        rw [hrow] at hfc
        exact Option.noConfusion hfc
    | .int n =>
        rw [hrow] at hfc
        exact Option.noConfusion hfc
    | .float f =>
        rw [hrow] at hfc
        exact Option.noConfusion hfc
    | .datetime ms =>
        rw [hrow] at hfc
        exact Option.noConfusion hfc
    | .text s =>
        rw [hrow] at hfc
        have hfc2 : (if py_strip s = "" then none else some (py_strip s)) = some x := hfc
        by_cases hs : py_strip s = ""
        · rw [if_pos hs] at hfc2
          cases hfc2
        · rw [if_neg hs] at hfc2
          injection hfc2 with h2
          rw [← h2]
          exact hs
  · rw [if_neg hco] at hfc
    cases hfc

/-- Every element of the tag sequence is a nonblank string. -/
theorem tag_seq_ne_empty (headers : List String) (cm : List (String × String))
    (row : Row) : ∀ x ∈ tag_seq headers cm row, ¬ x = "" := by
  intro x hx
  cases hg : get_value row cm "tag_list" none with
  | none =>
      rw [tag_seq_none headers cm row hg] at hx
      exact extra_tags_ne_empty headers row x hx
  | some v =>
      rw [tag_seq_some headers cm row v hg] at hx
      by_cases hb : py_strip (pyStr v) = ""
      · rw [if_pos hb] at hx
        exact extra_tags_ne_empty headers row x hx
      · rw [if_neg hb] at hx
        rcases List.mem_cons.mp hx with hxe | hxe
        · rw [hxe]
          exact hb
        · exact extra_tags_ne_empty headers row x hxe

/-- C9: the merged note tag string joins, with the separator, the
sequence made of the resolved nonblank tag_list value followed by the
nonblank values of the four literal auxiliary columns in fixed order; it
is null exactly when that sequence is empty, and it is never the empty
string; the built note record carries exactly this merged value. -/
theorem c9_tag_merge :
    (∀ (headers : List String) (cm : List (String × String)) (row : Row),
      merged_tags headers cm row = spec_merged_tags headers cm row) ∧
    (∀ (headers : List String) (cm : List (String × String)) (row : Row),
      merged_tags headers cm row = none ↔ tag_seq headers cm row = []) ∧
    (∀ (headers : List String) (cm : List (String × String)) (row : Row),
      ¬ merged_tags headers cm row = some "") ∧
    (∀ (pdm : Value → Option Int) (headers : List String)
      (cm : List (String × String)) (row : Row) (nid : String) (nowMs : Int),
      (mkNote pdm headers cm row nid nowMs).map (fun r => r.tag_list)
        = (mkNote pdm headers cm row nid nowMs).map
            (fun _ => merged_tags headers cm row)) := by
  refine ⟨?_, ?_, ?_, ?_⟩
  · intro headers cm row
    rw [merged_tags, spec_merged_tags, tag_seq_eq_spec]
    cases hl : spec_tag_seq headers cm row <;> simp
  · intro headers cm row
    rw [merged_tags]
    cases hl : tag_seq headers cm row <;> simp
  · intro headers cm row h
    rw [merged_tags] at h
    cases hl : tag_seq headers cm row with
    | nil =>
        rw [hl] at h
        cases h
    | cons a t =>
        rw [hl] at h
        have hne : ¬ a = "" :=
          tag_seq_ne_empty headers cm row a (by rw [hl]; exact List.mem_cons_self a t)
        simp at h
        exact intercalate_ne_empty " | " a t hne h
  · intro pdm headers cm row nid nowMs
    cases h : mkNote pdm headers cm row nid nowMs with
    | error e => rfl
    | ok r =>
        simp [Except.map]
        exact (mkNote_ok_fields pdm headers cm row nid nowMs r h).2.2

/-- When the schema field note_id resolved to no column, the note_id of
each row is synthesized from its position. -/
theorem note_id_of_synth (cm : List (String × String)) (row : Row) (idx : Nat)
    (h0 : (cm.lookup "note_id").isNone) :
    note_id_of cm row idx = some ("row_" ++ toString (idx + 1)) := by
  cases hlk : cm.lookup "note_id" with
  | some x =>
      rw [hlk] at h0
      cases h0
  | none => simp [note_id_of, hlk]

/-- C6: a note row whose resolved note_id cell is falsy is skipped; when
note_id resolved to no column every row yields a record and the record
at zero-based position i carries the synthesized id row_(i+1) (position
3 gives row_4); a falsy user_id cell becomes the placeholder unknown and
never skips the row. -/
theorem c6_note_id_policy :
    (∀ (pdm : Value → Option Int) (headers : List String)
      (cm : List (String × String)) (nowMs : Int) (row : Row) (rest : List Row)
      (idx : Nat), (cm.lookup "note_id").isSome = true →
      truthy (get_value row cm "note_id" none) = false →
      note_rows pdm headers cm nowMs (row :: rest) idx
        = note_rows pdm headers cm nowMs rest (idx + 1)) ∧
    (∀ (pdm : Value → Option Int) (headers : List String)
      (cm : List (String × String)) (nowMs : Int) (rows : List Row) (idx : Nat)
      (recs : List NoteRecord), (cm.lookup "note_id").isNone = true →
      note_rows pdm headers cm nowMs rows idx = .ok recs →
      recs.length = rows.length ∧
      ∀ (i : Nat) (h : i < recs.length),
        (recs.get ⟨i, h⟩).note_id = "row_" ++ toString (idx + i + 1)) ∧
    ((process_notes (fun _ => none) (some ⟨["title"],
        [fun _ => .na, fun _ => .na, fun _ => .na, fun _ => .na]⟩) 3).map
      (fun o => o.map (fun l => l.map (fun r => r.note_id)))
      = .ok (some ["row_1", "row_2", "row_3", "row_4"])) ∧
    (∀ (pdm : Value → Option Int) (headers : List String)
      (cm : List (String × String)) (row : Row) (nid : String) (nowMs : Int)
      (r : NoteRecord), mkNote pdm headers cm row nid nowMs = .ok r →
      truthy (get_value row cm "user_id" none) = false → r.user_id = "unknown") ∧
    (∀ (pdm : Value → Option Int) (headers : List String)
      (cm : List (String × String)) (nowMs : Int) (row : Row) (rest : List Row)
      (idx : Nat) (nid : String) (obj : NoteRecord) (tail : List NoteRecord),
      note_id_of cm row idx = some nid →
      mkNote pdm headers cm row nid nowMs = .ok obj →
      note_rows pdm headers cm nowMs rest (idx + 1) = .ok tail →
      note_rows pdm headers cm nowMs (row :: rest) idx = .ok (obj :: tail)) := by
  refine ⟨?_, ?_, by decide, ?_, ?_⟩
  · intro pdm headers cm nowMs row rest idx h1 h2
    have h3 : note_id_of cm row idx = none := by
      simp [note_id_of, h1, h2]
    simp [note_rows, h3]
  · intro pdm headers cm nowMs rows
    induction rows with
    | nil =>
        intro idx recs h0 h
        have h2 : ([] : List NoteRecord) = recs := by
          injection h with h2
        rw [← h2]
        exact ⟨rfl, fun i hi => absurd hi (by simp)⟩
    | cons row rest ih =>
        intro idx recs h0 h
        have hnid := note_id_of_synth cm row idx h0
        rw [show note_rows pdm headers cm nowMs (row :: rest) idx
            = (match mkNote pdm headers cm row ("row_" ++ toString (idx + 1)) nowMs with
               | .error e => .error e
               | .ok obj =>
                   match note_rows pdm headers cm nowMs rest (idx + 1) with
                   | .error e => .error e
                   | .ok tail => .ok (obj :: tail))
            by rw [note_rows, hnid]] at h
        cases hmk : mkNote pdm headers cm row ("row_" ++ toString (idx + 1)) nowMs with
        | error e =>
            rw [hmk] at h
            exact Except.noConfusion h
        | ok obj =>
            rw [hmk] at h
            cases hrec : note_rows pdm headers cm nowMs rest (idx + 1) with
            | error e =>
                rw [hrec] at h
                exact Except.noConfusion h
            | ok tail =>
                rw [hrec] at h
                have h2 : obj :: tail = recs := by
                  injection h with h2
                rw [← h2]
                obtain ⟨hlen, hget⟩ := ih (idx + 1) tail h0 hrec
                refine ⟨by simp [hlen], ?_⟩
                intro i hi
                match i with
                | 0 =>
                    have := (mkNote_ok_fields pdm headers cm row _ nowMs obj hmk).1
                    simpa using this
                | Nat.succ j =>
                    have hj : j < tail.length := by
                      simpa using hi
                    have := hget j hj
                    rw [show ((obj :: tail).get ⟨j + 1, hi⟩) = tail.get ⟨j, hj⟩ from rfl]
                    rw [this]
                    have harg : idx + 1 + j + 1 = idx + (j + 1) + 1 := by omega
                    rw [harg]
  · intro pdm headers cm row nid nowMs r h h0
    have hf := (mkNote_ok_fields pdm headers cm row nid nowMs r h).2.1
    rw [h0] at hf
    simpa using hf
  · intro pdm headers cm nowMs row rest idx nid obj tail h1 h2 h3
    simp [note_rows, h1, h2, h3]

/-- C7: when comment_id or note_id resolves to no column the whole
comment batch is skipped and the run result is exactly that of a run
with no comment sheet, so the other entities proceed unchanged; when
both resolve, the accepted records are exactly the rows whose two id
cells are truthy, in order, and carry those ids; concretely, a sheet
with one valid row and one row missing comment_id yields exactly the one
record. -/
theorem c7_comment_requirements :
    (∀ (pdm : Value → Option Int) (nowMs : Int) (sh : Sheet),
      (((build_col_map sh.headers COMMENT_ALIASES).lookup "comment_id").isNone = true ∨
        ((build_col_map sh.headers COMMENT_ALIASES).lookup "note_id").isNone = true) →
      process_comments pdm (some sh) nowMs = .ok none) ∧
    (∀ (pdm : Value → Option Int) (nowMs : Int) (dfc dfn : Option Sheet) (sh : Sheet),
      (((build_col_map sh.headers COMMENT_ALIASES).lookup "comment_id").isNone = true ∨
        ((build_col_map sh.headers COMMENT_ALIASES).lookup "note_id").isNone = true) →
      import_run pdm nowMs dfc dfn (some sh) = import_run pdm nowMs dfc dfn none) ∧
    (∀ (pdm : Value → Option Int) (cm : List (String × String)) (nowMs : Int)
      (rows : List Row) (recs : List CommentRecord),
      comment_rows pdm cm nowMs rows = .ok recs →
      recs.map (fun r => (r.comment_id, r.note_id))
        = rows.filterMap (comment_ids cm)) ∧
    ((process_comments (fun _ => none) (some ⟨["comment_id", "note_id"],
        [fun c => if c = "comment_id" then .text "c1" else
          if c = "note_id" then .text "n1" else .na,
         fun c => if c = "note_id" then .text "n1" else .na]⟩) 9).map
      (Option.map (List.map (fun r => (r.comment_id, r.note_id))))
      = .ok (some [("c1", "n1")])) := by
  have hskip : ∀ (pdm : Value → Option Int) (nowMs : Int) (sh : Sheet),
      (((build_col_map sh.headers COMMENT_ALIASES).lookup "comment_id").isNone = true ∨
        ((build_col_map sh.headers COMMENT_ALIASES).lookup "note_id").isNone = true) →
      process_comments pdm (some sh) nowMs = .ok none := by
    intro pdm nowMs sh h
    rcases h with h | h <;> by_cases he : sh.rows.isEmpty <;>
      simp [process_comments, he, h]
  refine ⟨hskip, ?_, ?_, by decide⟩
  · intro pdm nowMs dfc dfn sh h
    have h1 := hskip pdm nowMs sh h
    rw [import_run, import_run, h1]
    rfl
  · intro pdm cm nowMs rows
    induction rows with
    | nil =>
        intro recs h
        have h2 : ([] : List CommentRecord) = recs := by
          injection h with h2
        rw [← h2]
        rfl
    | cons row rest ih =>
        intro recs h
        cases hcid : comment_ids cm row with
        | none =>
            rw [show comment_rows pdm cm nowMs (row :: rest)
                = comment_rows pdm cm nowMs rest by rw [comment_rows, hcid]] at h
            rw [List.filterMap_cons, hcid]
            exact ih recs h
        | some p =>
            rw [show comment_rows pdm cm nowMs (row :: rest)
                = (match mkComment pdm cm row p.1 p.2 nowMs with
                   | .error e => .error e
                   | .ok obj =>
                       match comment_rows pdm cm nowMs rest with
                       | .error e => .error e
                       | .ok tail => .ok (obj :: tail))
                by rw [comment_rows, hcid]] at h
            cases hmk : mkComment pdm cm row p.1 p.2 nowMs with
            | error e =>
                rw [hmk] at h
                exact Except.noConfusion h
            | ok obj =>
                rw [hmk] at h
                cases hrec : comment_rows pdm cm nowMs rest with
                | error e =>
                    rw [hrec] at h
                    exact Except.noConfusion h
                | ok tail =>
                    rw [hrec] at h
                    have h2 : obj :: tail = recs := by
                      injection h with h2
                    rw [← h2]
                    obtain ⟨hc, hn⟩ := mkComment_ok_fields pdm cm row p.1 p.2 nowMs obj hmk
                    rw [List.filterMap_cons, hcid]
                    simp only [List.map_cons, hc, hn, ih tail hrec]

/-- Invariant of the deduplicating creator loop: given any set of already
seen user ids, a successful run yields records with pairwise-distinct
user ids not among the seen ones, each built from the first remaining
row carrying its id, and every unseen id that occurs among the remaining
rows is represented. -/
theorem creator_rows_invariant (cm : List (String × String)) (nowMs : Int) :
    ∀ (rows : List Row) (seen : List String) (recs : List CreatorRecord),
      creator_rows cm nowMs rows seen = .ok recs →
      ((recs.map (fun r => r.user_id)).Nodup ∧
       (∀ r ∈ recs, r.user_id ∉ seen ∧
         ∃ row l1 l2, rows = l1 ++ row :: l2 ∧ uid_str cm row = some r.user_id ∧
           (∀ q ∈ l1, uid_str cm q ≠ some r.user_id) ∧
           mkCreator cm row r.user_id nowMs = .ok r) ∧
       (∀ s, s ∉ seen → (∃ row ∈ rows, uid_str cm row = some s) →
         ∃ r ∈ recs, r.user_id = s)) := by
  intro rows
  induction rows with
  | nil =>
      intro seen recs h
      have h2 : ([] : List CreatorRecord) = recs := by
        injection h with h2
      rw [← h2]
      refine ⟨by simp, by simp, ?_⟩
      intro s hs hex
      obtain ⟨row, hrow, _⟩ := hex
      cases hrow
  | cons row rest ih =>
      intro seen recs h
      cases hu : uid_str cm row with
      | none =>
          rw [show creator_rows cm nowMs (row :: rest) seen
              = creator_rows cm nowMs rest seen by rw [creator_rows, hu]] at h
          obtain ⟨hnd, hmemp, hcomp⟩ := ih seen recs h
          refine ⟨hnd, ?_, ?_⟩
          · intro r hr
            obtain ⟨hns, row2, l1, l2, heq, hus, hfirst, hmk⟩ := hmemp r hr
            refine ⟨hns, row2, row :: l1, l2, by rw [List.cons_append, heq], hus, ?_, hmk⟩
            intro q hq
            rcases List.mem_cons.mp hq with hq1 | hq2
            · rw [hq1, hu]
              exact fun hc => Option.noConfusion hc
            · exact hfirst q hq2
          · intro s hs hex
            obtain ⟨row2, hrow2, hus⟩ := hex
            rcases List.mem_cons.mp hrow2 with heqr | hin
            · rw [heqr, hu] at hus
              cases hus
            · exact hcomp s hs ⟨row2, hin, hus⟩
      | some s0 =>
          by_cases hmem : s0 ∈ seen
          · rw [show creator_rows cm nowMs (row :: rest) seen
                = creator_rows cm nowMs rest seen by
                  rw [creator_rows, hu]; simp [hmem]] at h
            obtain ⟨hnd, hmemp, hcomp⟩ := ih seen recs h
            refine ⟨hnd, ?_, ?_⟩
            · intro r hr
              obtain ⟨hns, row2, l1, l2, heq, hus, hfirst, hmk⟩ := hmemp r hr
              refine ⟨hns, row2, row :: l1, l2, by rw [List.cons_append, heq], hus, ?_, hmk⟩
              intro q hq
              rcases List.mem_cons.mp hq with hq1 | hq2
              · rw [hq1, hu]
                intro hc
                injection hc with hcc
                rw [hcc] at hmem
                exact hns hmem
              · exact hfirst q hq2
            · intro s hs hex
              obtain ⟨row2, hrow2, hus⟩ := hex
              rcases List.mem_cons.mp hrow2 with heqr | hin
              · rw [heqr, hu] at hus
                injection hus with hcc
                rw [hcc] at hmem
                exact absurd hmem hs
              · exact hcomp s hs ⟨row2, hin, hus⟩
          · rw [show creator_rows cm nowMs (row :: rest) seen
                = (match mkCreator cm row s0 nowMs with
                   | .error e => .error e
                   | .ok obj =>
                       match creator_rows cm nowMs rest (s0 :: seen) with
                       | .error e => .error e
                       | .ok tail => .ok (obj :: tail))
                by rw [creator_rows, hu]; simp [hmem]] at h
            cases hmk : mkCreator cm row s0 nowMs with
            | error e =>
                rw [hmk] at h
                exact Except.noConfusion h
            | ok obj =>
                rw [hmk] at h
                cases hrec : creator_rows cm nowMs rest (s0 :: seen) with
                | error e =>
                    rw [hrec] at h
                    exact Except.noConfusion h
                | ok tail =>
                    rw [hrec] at h
                    have h2 : obj :: tail = recs := by
                      injection h with h2
                    rw [← h2]
                    obtain ⟨hnd, hmemp, hcomp⟩ := ih (s0 :: seen) tail hrec
                    have hobj : obj.user_id = s0 :=
                      (mkCreator_ok_fields cm row s0 nowMs obj hmk).1
                    refine ⟨?_, ?_, ?_⟩
                    · rw [List.map_cons, List.nodup_cons]
                      refine ⟨?_, hnd⟩
                      intro hin
                      rcases List.mem_map.mp hin with ⟨r, hr, hru⟩
                      have hns := (hmemp r hr).1
                      rw [hru, hobj] at hns
                      exact hns (List.mem_cons_self _ _)
                    · intro r hr
                      rcases List.mem_cons.mp hr with hre | hrt
                      · rw [hre]
                        refine ⟨by rw [hobj]; exact hmem, row, [], rest, rfl,
                          by rw [hobj]; exact hu, by simp, by rw [hobj]; exact hmk⟩
                      · obtain ⟨hns, row2, l1, l2, heq, hus, hfirst, hmk2⟩ := hmemp r hrt
                        have hns2 : r.user_id ∉ seen :=
                          fun hc => hns (List.mem_cons_of_mem _ hc)
                        have hne : ¬ r.user_id = s0 :=
                          fun hc => hns (by rw [hc]; exact List.mem_cons_self _ _)
                        refine ⟨hns2, row2, row :: l1, l2,
                          by rw [List.cons_append, heq], hus, ?_, hmk2⟩
                        intro q hq
                        rcases List.mem_cons.mp hq with hq1 | hq2
                        · rw [hq1, hu]
                          intro hc
                          injection hc with hcc
                          exact hne hcc.symm
                        · exact hfirst q hq2
                    · intro s hs hex
                      obtain ⟨row2, hrow2, hus⟩ := hex
                      by_cases hss : s = s0
                      · exact ⟨obj, List.mem_cons_self _ _, by rw [hobj, hss]⟩
                      · have hs2 : s ∉ s0 :: seen := by
                          intro hc
                          rcases List.mem_cons.mp hc with hc1 | hc2
                          · exact hss hc1
                          · exact hs hc2
                        rcases List.mem_cons.mp hrow2 with heqr | hin
                        · rw [heqr, hu] at hus
                          injection hus with hcc
                          exact absurd hcc.symm hss
                        · obtain ⟨r, hr, hru⟩ := hcomp s hs2 ⟨row2, hin, hus⟩
                          exact ⟨r, List.mem_cons_of_mem _ hr, hru⟩

/-- C2: a successful creator run emits records with pairwise-distinct
user_id strings; every record is built, with all its field values, from
the first row carrying its user_id, and every user_id that occurs with a
truthy cell is represented, so later rows with a seen user_id are
dropped; concretely two rows with user_id u1 and nicknames A then B
yield exactly one record, with nickname A. -/
theorem c2_creator_dedup :
    (∀ (cm : List (String × String)) (nowMs : Int) (rows : List Row)
      (recs : List CreatorRecord),
      creator_rows cm nowMs rows [] = .ok recs →
      ((recs.map (fun r => r.user_id)).Nodup ∧
       (∀ r ∈ recs, ∃ row, is_first_with cm rows r.user_id row ∧
         mkCreator cm row r.user_id nowMs = .ok r) ∧
       (∀ (s : String) (row : Row), is_first_with cm rows s row →
         ∃ r ∈ recs, r.user_id = s))) ∧
    ((process_creators (some ⟨["user_id", "nickname"],
        [fun c => if c = "user_id" then .text "u1" else
          if c = "nickname" then .text "A" else .na,
         fun c => if c = "user_id" then .text "u1" else
          if c = "nickname" then .text "B" else .na]⟩) 1000).map
      (Option.map (List.map (fun r => (r.user_id, r.nickname))))
      = .ok (some [("u1", some (.text "A"))])) := by
  refine ⟨?_, by decide⟩
  intro cm nowMs rows recs h
  obtain ⟨hnd, hmemp, hcomp⟩ := creator_rows_invariant cm nowMs rows [] recs h
  refine ⟨hnd, ?_, ?_⟩
  · intro r hr
    obtain ⟨_, row, l1, l2, heq, hus, hfirst, hmk⟩ := hmemp r hr
    exact ⟨row, ⟨l1, l2, heq, hus, hfirst⟩, hmk⟩
  · intro s row hif
    obtain ⟨l1, l2, heq, hus, hfirst⟩ := hif
    refine hcomp s (by simp) ⟨row, ?_, hus⟩
    rw [heq]
    exact List.mem_append_right l1 (List.mem_cons_self _ _)
